import Mathlib

/-!
# Slap-game: verification of the turn/round state machine

Shallow embedding of the slap-game repository. The repository contains two
implementations of the same game:

* `GameScreen` (file `src/unnamed/part_000`): the expo-router game screen.
  Its React state (`grid`, `currentPlayerIndex`, `picksLeft`, `slappedPlayer`,
  `isGameOver`, `mineCount`, `turnLockedRef`) is gathered in `GameState`;
  the roster `players` is derived from navigation params and is constant for
  the screen's lifetime, so it is passed as a parameter.
* `App` (file `src/App.tsx`): a standalone variant whose state
  (`players` with slap counts, `currentPlayerIndex`, `mineIndex`, `grid`,
  `picksLeft`, `roundMessage`) is gathered in `AppState`.
* `SetupScreen` (file `src/unnamed/part_001`): the roster-entry screen.

JavaScript numbers that the code can drive below zero are modelled as `Int`;
indices that are only ever natural are `Nat`.  `Math.random()` draws are
modelled as an explicit list of drawn indices consumed left to right, and the
mine-placement `while` loop returns `none` when the supplied draws run out or
a draw is out of range (in the real code an out-of-range index would crash).
-/

/-- A grid cell, as in both `src/App.tsx` (`Tile`) and
`src/unnamed/part_000` (`Tile`): an id, a mine flag and a revealed flag. -/
structure Tile where
  id : Nat
  isMine : Bool
  isRevealed : Bool
deriving Repr, DecidableEq

instance : Inhabited Tile := ⟨⟨0, false, false⟩⟩

/-- JavaScript truthiness of a `string | null | undefined` value:
`null`/`undefined` and the empty string are falsy. -/
def truthyStr : Option String → Bool
  | none => false
  | some s => s ≠ ""

/-- JavaScript's `String.prototype.trim`: strip leading and trailing
whitespace.  Defined structurally on the character list so that proofs can
evaluate it on concrete names. -/
def jsTrim (s : String) : String :=
  String.mk (((s.data.dropWhile Char.isWhitespace).reverse.dropWhile
    Char.isWhitespace).reverse)

/-! ## GameScreen (src/unnamed/part_000) -/

/-- The React state of `GameScreen` in `src/unnamed/part_000`:
`grid`, `currentPlayerIndex`, `picksLeft`, `slappedPlayer`, `isGameOver`,
`mineCount` and the `turnLockedRef` ref. -/
structure GameState where
  grid : List Tile
  currentPlayerIndex : Nat
  picksLeft : Int
  slappedPlayer : Option String
  isGameOver : Bool
  mineCount : Nat
  turnLocked : Bool
deriving Repr, DecidableEq

/-- The fresh all-hidden, all-safe grid built at the top of `initializeGame`
(`src/unnamed/part_000` lines 64-68): `TOTAL_TILES = 25` tiles with
consecutive ids. -/
def newGridBase : List Tile :=
  (List.range 25).map (fun i => ⟨i, false, false⟩)

/-- The mine-placement `while` loop of `initializeGame`
(`src/unnamed/part_000` lines 70-77).  Each iteration consumes one
`Math.floor(Math.random() * TOTAL_TILES)` draw from `draws`; a draw hitting a
cell that is already a mine is skipped, otherwise the cell becomes a mine.
Returns `none` when the draws run out or a draw is out of range. -/
def placeMines : List Nat → Nat → List Tile → Option (List Tile)
  | _, 0, g => some g
  | [], _ + 1, _ => none
  | d :: ds, k + 1, g =>
    match g.get? d with
    | none => none
    | some t =>
      if t.isMine then
        placeMines ds (k + 1) g
      else
        placeMines ds k (g.set d { t with isMine := true })

/-- `initializeGame` of `src/unnamed/part_000` (lines 63-84): build a fresh
grid, place `mineCount` mines, reset `picksLeft` to 3, clear `isGameOver`,
`slappedPlayer` and the turn lock.  `mineCount` and `currentPlayerIndex` are
untouched. -/
def initializeGame (draws : List Nat) (s : GameState) : Option GameState :=
  (placeMines draws s.mineCount newGridBase).map fun g =>
    { s with
      grid := g
      picksLeft := 3
      isGameOver := false
      slappedPlayer := none
      turnLocked := false }

/-- `nextTurn` of `src/unnamed/part_000` (lines 94-99): reset `picksLeft` to
3, release the turn lock and advance `currentPlayerIndex` to
`(prev + 1) % players.length` (or 0 for an empty roster).  The grid is NOT
touched. -/
def nextTurn (numPlayers : Nat) (s : GameState) : GameState :=
  { s with
    picksLeft := 3
    turnLocked := false
    currentPlayerIndex :=
      if numPlayers ≠ 0 then (s.currentPlayerIndex + 1) % numPlayers else 0 }

/-- `handleTilePress` of `src/unnamed/part_000` (lines 101-138), up to and
including the synchronous state updates.  The 500 ms `setTimeout` that fires
`nextTurn` after the last safe pick is modelled separately (see
`tilePressStartsTimer`): the state returned here is the one visible while
that timer is pending. -/
def handleTilePress (players : List String) (index : Nat) (s : GameState) :
    GameState :=
  if s.isGameOver ∨ (s.grid.getD index default).isRevealed
      ∨ truthyStr s.slappedPlayer ∨ s.picksLeft ≤ 0 ∨ s.turnLocked then
    s
  else
    match s.grid.get? index with
    | none => s
    | some tile =>
      let newGrid := s.grid.set index { tile with isRevealed := true }
      if tile.isMine then
        { s with
          grid := newGrid
          turnLocked := true
          slappedPlayer := players.get? s.currentPlayerIndex
          isGameOver := true }
      else
        if s.picksLeft - 1 = 0 then
          { s with grid := newGrid, picksLeft := 0, turnLocked := true }
        else
          { s with grid := newGrid, picksLeft := s.picksLeft - 1 }

/-- Whether `handleTilePress` scheduled the 500 ms `setTimeout(nextTurn)`
(`src/unnamed/part_000` lines 128-133): exactly the safe-pick branch whose
new `picksLeft` is 0. -/
def tilePressStartsTimer (index : Nat) (s : GameState) : Bool :=
  if s.isGameOver ∨ (s.grid.getD index default).isRevealed
      ∨ truthyStr s.slappedPlayer ∨ s.picksLeft ≤ 0 ∨ s.turnLocked then
    false
  else
    match s.grid.get? index with
    | none => false
    | some tile => ¬tile.isMine ∧ s.picksLeft - 1 = 0

/-- `handleEndTurn` of `src/unnamed/part_000` (lines 140-144): a no-op when
`picksLeft === 3`, otherwise lock the turn and run `nextTurn`. -/
def handleEndTurn (numPlayers : Nat) (s : GameState) : GameState :=
  if s.picksLeft = 3 then s
  else nextTurn numPlayers { s with turnLocked := true }

/-- The End Turn button as wired in the `GameScreen` JSX
(`src/unnamed/part_000` lines 238-246): the press is dropped while
`picksLeft === 3 || isGameOver` (the button is `disabled`), otherwise it runs
`handleEndTurn`. -/
def endTurnButton (numPlayers : Nat) (s : GameState) : GameState :=
  if s.picksLeft = 3 ∨ s.isGameOver then s
  else handleEndTurn numPlayers s

/-- `handleSlapDismiss` of `src/unnamed/part_000` (lines 146-150): clear
`slappedPlayer`, run `initializeGame`, then advance `currentPlayerIndex` to
`(prev + 1) % players.length` (or 0 for an empty roster). -/
def handleSlapDismiss (players : List String) (draws : List Nat)
    (s : GameState) : Option GameState :=
  (initializeGame draws { s with slappedPlayer := none }).map fun s1 =>
    { s1 with
      currentPlayerIndex :=
        if players.length ≠ 0 then
          (s.currentPlayerIndex + 1) % players.length
        else 0 }

/-- The Minus control on Hidden Mines (`src/unnamed/part_000` line 191):
`setMineCount(Math.max(1, prev - 1))`. -/
def decMineCount (s : GameState) : GameState :=
  { s with mineCount := max 1 (s.mineCount - 1) }

/-- The Plus control on Hidden Mines (`src/unnamed/part_000` line 208):
`setMineCount(Math.min(24, prev + 1))`. -/
def incMineCount (s : GameState) : GameState :=
  { s with mineCount := min 24 (s.mineCount + 1) }

/-- Parsing of the roster hand-off (`src/unnamed/part_000` lines 46-52):
`params.players ? JSON.parse(params.players) : []` inside `try/catch`
returning `[]`.  `jsonParse` abstracts the JavaScript `JSON.parse` library
call together with the `as string[]` cast: `.error` is a thrown parse error.
A missing param, an empty-string param (falsy in JavaScript) and a parse
error all yield the empty roster. -/
def parsePlayers (jsonParse : String → Except String (List String))
    (param : Option String) : List String :=
  match param with
  | none => []
  | some s =>
    if s = "" then []
    else
      match jsonParse s with
      | .ok l => l
      | .error _ => []

/-- The states of the spec's turn/round state machine, read off the
`GameScreen` flags: `Slapped` when the mine modal / game-over flag is up,
`RoundWon` when the picks are exhausted (or the turn is locked awaiting the
advance timer), `AwaitingPick` otherwise. -/
inductive Phase where
  | AwaitingPick
  | RoundWon
  | Slapped
deriving Repr, DecidableEq

/-- Map a `GameScreen` state to its machine phase. -/
def phase (s : GameState) : Phase :=
  if s.isGameOver ∨ truthyStr s.slappedPlayer then .Slapped
  else if s.picksLeft ≤ 0 ∨ s.turnLocked then .RoundWon
  else .AwaitingPick

/-- Number of mine cells in a grid. -/
def countMines (g : List Tile) : Nat :=
  (g.filter (fun t => t.isMine)).length

/-! ## Standalone app (src/App.tsx) -/

/-- A player of `src/App.tsx`: id (`Date.now()`), display name, cumulative
slap count. -/
structure AppPlayer where
  id : Nat
  name : String
  slaps : Nat
deriving Repr, DecidableEq

/-- The React state of `App` in `src/App.tsx` (lines 35-43); the transient
`playerName` text-input value is passed to `appAddPlayer` as an argument. -/
structure AppState where
  players : List AppPlayer
  currentPlayerIndex : Nat
  mineIndex : Nat
  grid : List Tile
  picksLeft : Int
  roundMessage : String
deriving Repr, DecidableEq

/-- `createGrid` of `src/App.tsx` (lines 26-32): `GRID_SIZE * GRID_SIZE = 25`
hidden tiles, the one whose id equals `mineIndex` being the mine. -/
def createGrid (mineIndex : Nat) : List Tile :=
  (List.range 25).map (fun i => ⟨i, i == mineIndex, false⟩)

/-- `resetRound` of `src/App.tsx` (lines 50-57); `nextMine` is the
`Math.floor(Math.random() * 25)` draw made on entry. -/
def resetRound (nextMine : Nat) (nextPlayerIndex : Nat) (message : Option String)
    (s : AppState) : AppState :=
  { s with
    mineIndex := nextMine
    grid := createGrid nextMine
    picksLeft := 3
    roundMessage := message.getD "Pick up to 3 tiles."
    currentPlayerIndex := nextPlayerIndex }

/-- `advanceTurn` of `src/App.tsx` (lines 59-65): a no-op with no players,
otherwise `resetRound` at index `(current + 1) % players.length`. -/
def advanceTurn (nextMine : Nat) (message : Option String) (s : AppState) :
    AppState :=
  if s.players.length = 0 then s
  else
    resetRound nextMine ((s.currentPlayerIndex + 1) % s.players.length)
      message s

/-- `addPlayer` of `src/App.tsx` (lines 67-78): trim the entered name, drop
it if empty (falsy), otherwise append a player with 0 slaps; there is no
duplicate check.  `newId` stands for `Date.now()`. -/
def appAddPlayer (playerName : String) (newId : Nat) (s : AppState) :
    AppState :=
  if jsTrim playerName = "" then s
  else
    { s with
      players := s.players ++ [⟨newId, jsTrim playerName, 0⟩]
      currentPlayerIndex :=
        if s.players.length = 0 then 0 else s.currentPlayerIndex }

/-- The `currentPlayer` memo of `src/App.tsx` (lines 45-48):
`players.length ? players[currentPlayerIndex] : undefined`, which is
`players[currentPlayerIndex]` (possibly `undefined`) in all cases. -/
def currentPlayer (s : AppState) : Option AppPlayer :=
  if s.players.length ≠ 0 then s.players.get? s.currentPlayerIndex else none

/-- `handlePick` of `src/App.tsx` (lines 80-107); `nextMine` is the draw
`advanceTurn`'s `resetRound` would use if the round ends. -/
def handlePick (nextMine : Nat) (tileId : Nat) (s : AppState) : AppState :=
  match currentPlayer s with
  | none => s
  | some cp =>
    if s.picksLeft = 0 then s
    else
      match s.grid.find? (fun t => t.id == tileId) with
      | none => s
      | some pickedTile =>
        if pickedTile.isRevealed then s
        else
          let s1 := { s with
            grid := s.grid.map fun (t : Tile) =>
              if t.id == tileId then { t with isRevealed := true } else t }
          if pickedTile.isMine then
            let s2 := { s1 with
              players := s1.players.mapIdx fun (idx : Nat) (p : AppPlayer) =>
                if idx = s.currentPlayerIndex then
                  { p with slaps := p.slaps + 1 }
                else p }
            advanceTurn nextMine (some (cp.name ++ " hit the mine! Slap!")) s2
          else
            let s2 := { s1 with picksLeft := s.picksLeft - 1 }
            if s.picksLeft - 1 = 0 then
              advanceTurn nextMine (some (cp.name ++ " is safe. Next player."))
                s2
            else s2

/-! ## SetupScreen (src/unnamed/part_001) -/

/-- `addPlayer` of `src/unnamed/part_001` (lines 29-38): reject an empty
trimmed name silently; reject a name already in the roster with the
`Alert.alert("Duplicate Name", "Player already exists!")` message (returned
as the second component); otherwise append the trimmed name.  The roster is
always left unchanged on rejection. -/
def setupAddPlayer (playerName : String) (players : List String) :
    List String × Option String :=
  if jsTrim playerName = "" then (players, none)
  else if players.contains (jsTrim playerName) then
    (players, some "Duplicate Name: Player already exists!")
  else (players ++ [jsTrim playerName], none)

/-- `removePlayer` of `src/unnamed/part_001` (lines 40-45):
`splice(index, 1)`. -/
def setupRemovePlayer (index : Nat) (players : List String) : List String :=
  players.eraseIdx index

/-- The rosters the `SetupScreen` can ever hold: it starts empty and is only
changed by `addPlayer` and `removePlayer`. -/
inductive RosterReachable : List String → Prop
  | start : RosterReachable []
  | add (n : String) {ps : List String} (h : RosterReachable ps) :
      RosterReachable (setupAddPlayer n ps).1
  | remove (i : Nat) {ps : List String} (h : RosterReachable ps) :
      RosterReachable (setupRemovePlayer i ps)

/-! ## Concrete states used as witnesses and counterexamples -/

/-- A 25-cell grid whose mine is cell 1 and whose cell 0 has been revealed. -/
def gridRevealedZero : List Tile :=
  (List.range 25).map (fun i => ⟨i, i == 1, i == 0⟩)

/-- A `GameScreen` state in the `RoundWon` window: cell 0 revealed, picks
exhausted, turn locked, the advance timer pending. -/
def sWon : GameState :=
  { grid := gridRevealedZero, currentPlayerIndex := 0, picksLeft := 0,
    slappedPlayer := none, isGameOver := false, mineCount := 1,
    turnLocked := true }

/-- A fresh `GameScreen` round: mine on cell 1, nothing revealed, 3 picks. -/
def sFresh : GameState :=
  { grid := (List.range 25).map (fun i => ⟨i, i == 1, false⟩),
    currentPlayerIndex := 0, picksLeft := 3, slappedPlayer := none,
    isGameOver := false, mineCount := 1, turnLocked := false }

/-- A `GameScreen` state in `Slapped`: the mine (cell 1) was revealed by
player "A", the modal is up. -/
def sSlap : GameState :=
  { grid := (List.range 25).map (fun i => ⟨i, i == 1, i == 1⟩),
    currentPlayerIndex := 0, picksLeft := 3, slappedPlayer := some "A",
    isGameOver := true, mineCount := 1, turnLocked := true }

/-- The state `handleSlapDismiss ["A", "B"] [2] sSlap` produces: a fresh
grid with the mine on cell 2 and player "B" (index 1) to move. -/
def sDismissed : GameState :=
  { grid := (List.range 25).map (fun i => ⟨i, i == 2, false⟩),
    currentPlayerIndex := 1, picksLeft := 3, slappedPlayer := none,
    isGameOver := false, mineCount := 1, turnLocked := false }

/-- An `App` state with the single player "A" and a fresh round. -/
def appOne : AppState :=
  { players := [⟨1, "A", 0⟩], currentPlayerIndex := 0, mineIndex := 1,
    grid := createGrid 1, picksLeft := 3,
    roundMessage := "Pick up to 3 tiles." }

/-- An `App` state with players "A" (0 slaps) and "B" (5 slaps), "A" to
move, mine on cell 1. -/
def appTwo : AppState :=
  { players := [⟨1, "A", 0⟩, ⟨2, "B", 5⟩], currentPlayerIndex := 0,
    mineIndex := 1, grid := createGrid 1, picksLeft := 3,
    roundMessage := "Pick up to 3 tiles." }

/-- An `App` state mid-round: player "A", cell 0 already revealed, mine on
cell 1, two picks left. -/
def appMid : AppState :=
  { players := [⟨1, "A", 0⟩], currentPlayerIndex := 0, mineIndex := 1,
    grid := (List.range 25).map (fun i => ⟨i, i == 1, i == 0⟩),
    picksLeft := 2, roundMessage := "Pick up to 3 tiles." }

/-- An `App` state with no picks left. -/
def appZero : AppState :=
  { players := [⟨1, "A", 0⟩], currentPlayerIndex := 0, mineIndex := 1,
    grid := createGrid 1, picksLeft := 0,
    roundMessage := "Pick up to 3 tiles." }

/-- An `App` state before any player has been registered. -/
def appEmpty : AppState :=
  { players := [], currentPlayerIndex := 0, mineIndex := 1,
    grid := createGrid 1, picksLeft := 3,
    roundMessage := "Pick up to 3 tiles." }

/-- A `GameScreen` state whose Hidden Mines setting is 3. -/
def sK3 : GameState :=
  { grid := [], currentPlayerIndex := 0, picksLeft := 3,
    slappedPlayer := none, isGameOver := false, mineCount := 3,
    turnLocked := false }

/-- The state `initializeGame [3, 7] (decMineCount sK3)` produces: mines on
cells 3 and 7, nothing revealed, mine setting 2. -/
def sK2Init : GameState :=
  { grid := (List.range 25).map (fun i => ⟨i, i == 3 || i == 7, false⟩),
    currentPlayerIndex := 0, picksLeft := 3, slappedPlayer := none,
    isGameOver := false, mineCount := 2, turnLocked := false }

/-- The state `initializeGame [3, 7, 9] sK3` produces: mines on cells 3, 7
and 9, nothing revealed. -/
def sK3Init : GameState :=
  { grid := (List.range 25).map
      (fun i => ⟨i, i == 3 || i == 7 || i == 9, false⟩),
    currentPlayerIndex := 0, picksLeft := 3, slappedPlayer := none,
    isGameOver := false, mineCount := 3, turnLocked := false }

/-- A `JSON.parse` stand-in that rejects every string, as `JSON.parse` does
on malformed input. -/
def alwaysFailParse : String → Except String (List String) :=
  fun _ => Except.error "Unexpected token"

/-! ## Helper lemmas -/

/-- Overwriting a valid index with a tile that agrees under `f` does not
change the image of the grid under `f`. -/
theorem map_set_of_get? {α : Type} (f : Tile → α) :
    ∀ (g : List Tile) (d : Nat) (t t2 : Tile), g.get? d = some t → f t2 = f t →
      (g.set d t2).map f = g.map f := by
  intro g
  induction g with
  | nil => intro d t t2 h _; simp at h
  | cons a as ih =>
    intro d t t2 h hf
    cases d with
    | zero =>
      simp at h
      subst h
      simp [List.set, hf]
    | succ n =>
      rw [List.get?_cons_succ] at h
      show f a :: (as.set n t2).map f = f a :: as.map f
      rw [ih n t t2 h hf]

/-- Turning a valid non-mine cell into a mine raises the mine count by
exactly one. -/
theorem countMines_set :
    ∀ (g : List Tile) (d : Nat) (t : Tile), g.get? d = some t →
      t.isMine = false →
      countMines (g.set d { t with isMine := true }) = countMines g + 1 := by
  intro g
  induction g with
  | nil => intro d t h _; simp at h
  | cons a as ih =>
    intro d t h hm
    cases d with
    | zero =>
      simp at h
      subst h
      simp [countMines, List.set, List.filter, hm]
    | succ n =>
      rw [List.get?_cons_succ] at h
      simp only [countMines, List.set, List.filter]
      cases ha : a.isMine <;>
        simpa [countMines, Nat.add_assoc] using ih n t h hm

/-- What the mine-placement loop guarantees on success: the grid keeps its
length, ids and revealed flags, and gains exactly `k` mines. -/
theorem placeMines_spec :
    ∀ (draws : List Nat) (k : Nat) (g g2 : List Tile),
      placeMines draws k g = some g2 →
      g2.length = g.length ∧ countMines g2 = countMines g + k ∧
      g2.map Tile.id = g.map Tile.id ∧
      g2.map Tile.isRevealed = g.map Tile.isRevealed := by
  intro draws
  induction draws with
  | nil =>
    intro k g g2 h
    cases k with
    | zero =>
      simp [placeMines] at h
      subst h
      simp
    | succ n => simp [placeMines] at h
  | cons d ds ih =>
    intro k g g2 h
    cases k with
    | zero =>
      simp [placeMines] at h
      subst h
      simp
    | succ n =>
      rw [placeMines] at h
      split at h
      · simp at h
      next t hg =>
        split at h
        next hm =>
          exact ih (n + 1) g g2 h
        next hm =>
          have hm2 : t.isMine = false := by simpa using hm
          obtain ⟨h1, h2, h3, h4⟩ := ih n (g.set d { t with isMine := true }) g2 h
          refine ⟨?_, ?_, ?_, ?_⟩
          · rw [h1, List.length_set]
          · rw [h2, countMines_set g d t hg hm2]
            omega
          · rw [h3,
              map_set_of_get? Tile.id g d t { t with isMine := true } hg rfl]
          · rw [h4,
              map_set_of_get? Tile.isRevealed g d t { t with isMine := true }
                hg rfl]

/-- Indexed map evaluated at an index. -/
theorem mapIdx_get? {α β : Type} (f : Nat → α → β) (l : List α) (j : Nat) :
    (l.mapIdx f).get? j = (l.get? j).map (f j) := by
  rw [List.mapIdx_eq_enum_map, List.get?_map, List.get?_enum]
  cases l.get? j <;> simp [Function.uncurry]

/-- What a successful `initializeGame` guarantees: a fresh 25-cell grid with
ids 0..24, exactly `mineCount` mines and nothing revealed; picks reset to 3;
both round-over indicators cleared; `mineCount` and `currentPlayerIndex`
untouched; the machine back in `AwaitingPick`. -/
theorem initializeGame_some (draws : List Nat) (s s2 : GameState)
    (h : initializeGame draws s = some s2) :
    s2.grid.length = 25 ∧ countMines s2.grid = s.mineCount ∧
    s2.grid.map Tile.id = List.range 25 ∧
    (∀ t ∈ s2.grid, t.isRevealed = false) ∧
    s2.picksLeft = 3 ∧ s2.isGameOver = false ∧ s2.slappedPlayer = none ∧
    s2.turnLocked = false ∧ s2.mineCount = s.mineCount ∧
    s2.currentPlayerIndex = s.currentPlayerIndex ∧
    phase s2 = Phase.AwaitingPick := by
  unfold initializeGame at h
  cases hp : placeMines draws s.mineCount newGridBase with
  | none => rw [hp] at h; simp at h
  | some g =>
    rw [hp] at h
    simp only [Option.map_some', Option.some.injEq] at h
    obtain ⟨h1, h2, h3, h4⟩ := placeMines_spec draws s.mineCount newGridBase g hp
    have hbl : newGridBase.length = 25 := by decide
    have hbc : countMines newGridBase = 0 := by decide
    have hbi : newGridBase.map Tile.id = List.range 25 := by decide
    have hbr : newGridBase.map Tile.isRevealed = List.replicate 25 false := by
      decide
    have hrev : ∀ t ∈ g, t.isRevealed = false := by
      intro t ht
      have : t.isRevealed ∈ g.map Tile.isRevealed := List.mem_map_of_mem _ ht
      rw [h4, hbr] at this
      exact List.eq_of_mem_replicate this
    subst h
    refine ⟨by rw [h1, hbl], by rw [h2, hbc]; simp,
      by rw [h3, hbi], hrev, rfl, rfl, rfl, rfl, rfl, rfl, ?_⟩
    simp [phase, truthyStr]

/-- `AwaitingPick` unfolded: no round-over indicator is set, picks remain
and the turn is not locked. -/
theorem phase_eq_awaitingPick (s : GameState) :
    phase s = Phase.AwaitingPick ↔
    (s.isGameOver = false ∧ truthyStr s.slappedPlayer = false ∧
     0 < s.picksLeft ∧ s.turnLocked = false) := by
  unfold phase
  split
  next h =>
    constructor
    · intro hh
      exact absurd hh (by simp)
    · rintro ⟨h1, h2, -, -⟩
      rw [h1, h2] at h
      simp at h
  next h =>
    split
    next h2 =>
      constructor
      · intro hh
        exact absurd hh (by simp)
      · rintro ⟨-, -, h3, h4⟩
        rcases h2 with h2 | h2
        · omega
        · rw [h4] at h2
          simp at h2
    next h2 =>
      push_neg at h h2
      constructor
      · intro _
        refine ⟨by simpa using h.1, by simpa using h.2, by omega,
          by simpa using h2.2⟩
      · intro _
        rfl

/-- `advanceTurn` never touches the player roster (and hence no slap
count). -/
theorem advanceTurn_players (nextMine : Nat) (message : Option String)
    (s : AppState) : (advanceTurn nextMine message s).players = s.players := by
  unfold advanceTurn resetRound
  split <;> rfl

/-- Single tile press in the `GameScreen`: `picksLeft` never increases and
never crosses below zero. -/
theorem handleTilePress_picksLeft (players : List String) (i : Nat)
    (s : GameState) (h : 0 ≤ s.picksLeft) :
    0 ≤ (handleTilePress players i s).picksLeft ∧
    (handleTilePress players i s).picksLeft ≤ s.picksLeft := by
  unfold handleTilePress
  split
  · exact ⟨h, le_refl _⟩
  next hguard =>
    push_neg at hguard
    obtain ⟨-, -, -, hpos, -⟩ := hguard
    split
    · exact ⟨h, le_refl _⟩
    · split
      · exact ⟨h, le_refl _⟩
      · split
        · exact ⟨le_refl 0, h⟩
        · exact ⟨by simp; omega, by simp⟩

/-! ## Claims -/

/-- C1: In `AwaitingPick` with a non-empty roster, revealing a mine cell —
regardless of the remaining `picksLeft` — moves the machine to `Slapped`
and charges exactly the current player.  In the `GameScreen` press this
means `isGameOver` is raised and the current player is recorded as the
slapped one; in `App.tsx`, the variant that stores slap counts, the current
player's count rises by 1 while every other roster entry is returned
untouched. -/
theorem mine_reveal_slaps_current_player
    (players : List String) (s : GameState) (i : Nat) (t : Tile)
    (hphase : phase s = Phase.AwaitingPick) (hplayers : players ≠ [])
    (ht : s.grid.get? i = some t) (hmine : t.isMine = true)
    (hunrev : t.isRevealed = false)
    (a : AppState) (nextMine tileId : Nat) (u : Tile) (cp : AppPlayer)
    (hcp : currentPlayer a = some cp) (hpicks : a.picksLeft ≠ 0)
    (hu : a.grid.find? (fun x => x.id == tileId) = some u)
    (humine : u.isMine = true) (huunrev : u.isRevealed = false) :
    phase (handleTilePress players i s) = Phase.Slapped ∧
    (handleTilePress players i s).isGameOver = true ∧
    (handleTilePress players i s).slappedPlayer
      = players.get? s.currentPlayerIndex ∧
    (∀ j, (handlePick nextMine tileId a).players.get? j
      = (a.players.get? j).map fun p =>
          if j = a.currentPlayerIndex then { p with slaps := p.slaps + 1 }
          else p) ∧
    (handlePick nextMine tileId a).players.length = a.players.length := by
  obtain ⟨hgo, hsp, hpl, htl⟩ := (phase_eq_awaitingPick s).mp hphase
  have hgd : s.grid.getD i default = t := by
    rw [List.getD_eq_get?, ht]
    rfl
  have hguard : ¬(s.isGameOver = true
      ∨ (s.grid.getD i default).isRevealed = true
      ∨ truthyStr s.slappedPlayer = true ∨ s.picksLeft ≤ 0
      ∨ s.turnLocked = true) := by
    rw [hgo, hsp, htl, hgd, hunrev]
    simp
    omega
  have hstep : handleTilePress players i s =
      { s with
        grid := s.grid.set i { t with isRevealed := true }
        turnLocked := true
        slappedPlayer := players.get? s.currentPlayerIndex
        isGameOver := true } := by
    unfold handleTilePress
    rw [if_neg hguard, ht]
    simp [hmine]
  have happ : (handlePick nextMine tileId a).players
      = a.players.mapIdx fun idx p =>
          if idx = a.currentPlayerIndex then { p with slaps := p.slaps + 1 }
          else p := by
    unfold handlePick
    rw [hcp]
    simp only [hpicks, hu, huunrev, humine, Bool.false_eq_true, if_false,
      if_true, ite_false, ite_true, advanceTurn_players]
  refine ⟨?_, ?_, ?_, ?_, ?_⟩
  · rw [hstep]
    simp [phase]
  · rw [hstep]
  · rw [hstep]
  · intro j
    rw [happ, mapIdx_get?]
  · rw [happ, List.length_mapIdx]

/-- Witness for C1 at a concrete input: roster `["A", "B"]`, "A" to move,
mine on cell 1, tapped. -/
theorem mine_reveal_slaps_current_player_witness :
    phase (handleTilePress ["A", "B"] 1 sFresh) = Phase.Slapped ∧
    (handleTilePress ["A", "B"] 1 sFresh).isGameOver = true ∧
    (handleTilePress ["A", "B"] 1 sFresh).slappedPlayer
      = ["A", "B"].get? sFresh.currentPlayerIndex ∧
    (∀ j, (handlePick 4 1 appTwo).players.get? j
      = (appTwo.players.get? j).map fun p =>
          if j = appTwo.currentPlayerIndex then { p with slaps := p.slaps + 1 }
          else p) ∧
    (handlePick 4 1 appTwo).players.length = appTwo.players.length :=
  mine_reveal_slaps_current_player ["A", "B"] sFresh 1 ⟨1, true, false⟩
    (by decide) (by decide) (by decide) (by decide) (by decide)
    appTwo 4 1 ⟨1, true, false⟩ ⟨1, "A", 0⟩
    (by decide) (by decide) (by decide) (by decide) (by decide)

/-- C2 counterexample: in the `GameScreen`, the automatic advance after a
won round (`nextTurn`, fired by the 500 ms timer) does NOT reset the grid.
From `sWon` — picks exhausted, cell 0 already revealed, roster of 2 — the
advance keeps the very same grid, cell 0 still revealed and the mine still
on cell 1, instead of producing a fresh mine placement. -/
theorem roundWon_advance_keeps_grid_cex :
    phase sWon = Phase.RoundWon ∧
    (nextTurn 2 sWon).grid = sWon.grid ∧
    ((nextTurn 2 sWon).grid.getD 0 default).isRevealed = true := by
  decide

/-- C2 amended: after a `Slapped` round, `handleSlapDismiss` resets the grid
with a fresh mine placement, resets `picksLeft` to 3, advances the
current-player index to `(prev + 1) mod playerCount` and returns to
`AwaitingPick`; after a `RoundWon` round, the `GameScreen` advance
(`nextTurn`) resets `picksLeft` to 3 and advances the index the same way but
KEEPS the existing grid and mine placement.  (In `App.tsx` both round-ending
paths, which go through `advanceTurn`, do reset the grid.) -/
theorem round_end_advance
    (players : List String) (draws : List Nat) (s s2 : GameState)
    (hdis : handleSlapDismiss players draws s = some s2)
    (hplayers : players.length ≠ 0)
    (n : Nat) (hn : n ≠ 0) (w : GameState)
    (a : AppState) (nextMine : Nat) (msg : Option String)
    (ha : a.players.length ≠ 0) :
    (s2.picksLeft = 3 ∧
     s2.currentPlayerIndex = (s.currentPlayerIndex + 1) % players.length ∧
     countMines s2.grid = s.mineCount ∧ s2.grid.length = 25 ∧
     (∀ t ∈ s2.grid, t.isRevealed = false) ∧
     phase s2 = Phase.AwaitingPick) ∧
    ((nextTurn n w).picksLeft = 3 ∧
     (nextTurn n w).currentPlayerIndex = (w.currentPlayerIndex + 1) % n ∧
     (nextTurn n w).grid = w.grid) ∧
    ((advanceTurn nextMine msg a).picksLeft = 3 ∧
     (advanceTurn nextMine msg a).currentPlayerIndex
        = (a.currentPlayerIndex + 1) % a.players.length ∧
     (advanceTurn nextMine msg a).grid = createGrid nextMine) := by
  refine ⟨?_, ⟨rfl, by simp [nextTurn, hn], rfl⟩,
    by simp [advanceTurn, resetRound, ha]⟩
  unfold handleSlapDismiss at hdis
  cases hini : initializeGame draws { s with slappedPlayer := none } with
  | none => rw [hini] at hdis; simp at hdis
  | some s1 =>
    rw [hini] at hdis
    simp only [Option.map_some', Option.some.injEq] at hdis
    obtain ⟨-, hc, -, hrev, hpk, hgo, hsl, htl, hmc, -, -⟩ :=
      initializeGame_some draws { s with slappedPlayer := none } s1 hini
    subst hdis
    refine ⟨hpk, by simp [hplayers], ?_, ?_, hrev, ?_⟩
    · exact hc
    · exact (initializeGame_some draws { s with slappedPlayer := none }
        s1 hini).1
    · rw [phase_eq_awaitingPick]
      exact ⟨hgo, by rw [hsl]; rfl, by rw [hpk]; norm_num, htl⟩

/-- Witness for C2's amended theorem at a concrete input: dismissing the
slap on `sSlap` with roster `["A", "B"]` and draw `[2]` yields `sDismissed`;
the `RoundWon` advance on `sWon` keeps its grid; `advanceTurn` on `appTwo`
rebuilds the grid with the mine on cell 4. -/
theorem round_end_advance_witness :
    (sDismissed.picksLeft = 3 ∧
     sDismissed.currentPlayerIndex
        = (sSlap.currentPlayerIndex + 1) % (["A", "B"] : List String).length ∧
     countMines sDismissed.grid = sSlap.mineCount ∧
     sDismissed.grid.length = 25 ∧
     (∀ t ∈ sDismissed.grid, t.isRevealed = false) ∧
     phase sDismissed = Phase.AwaitingPick) ∧
    ((nextTurn 2 sWon).picksLeft = 3 ∧
     (nextTurn 2 sWon).currentPlayerIndex = (sWon.currentPlayerIndex + 1) % 2 ∧
     (nextTurn 2 sWon).grid = sWon.grid) ∧
    ((advanceTurn 4 none appTwo).picksLeft = 3 ∧
     (advanceTurn 4 none appTwo).currentPlayerIndex
        = (appTwo.currentPlayerIndex + 1) % appTwo.players.length ∧
     (advanceTurn 4 none appTwo).grid = createGrid 4) :=
  round_end_advance ["A", "B"] [2] sSlap sDismissed (by decide) (by decide)
    2 (by decide) sWon appTwo 4 none (by decide)

/-- C3 counterexample: in the `GameScreen`, tapping BEFORE any player is
registered is NOT a no-op.  With an empty roster and the fresh state
`sFresh`, tapping cell 0 changes the state (the cell becomes revealed), and
tapping the mine cell 1 even raises `isGameOver` while recording no slapped
player. -/
theorem empty_roster_tap_changes_state_cex :
    handleTilePress [] 0 sFresh ≠ sFresh ∧
    ((handleTilePress [] 0 sFresh).grid.getD 0 default).isRevealed = true ∧
    (handleTilePress [] 1 sFresh).isGameOver = true ∧
    (handleTilePress [] 1 sFresh).slappedPlayer = none := by
  decide

/-- C3 amended: tapping an already-revealed cell or tapping with
`picksLeft = 0` leaves the entire state unchanged in both implementations,
and tapping with an empty roster is a no-op in `App.tsx` (whose
`handlePick` checks `currentPlayer`); the `GameScreen`'s `handleTilePress`,
however, has no roster guard, so with an empty roster a tap proceeds and
reveals the cell. -/
theorem tap_noop_cases
    (players : List String) (i : Nat) (s : GameState)
    (a : AppState) (nextMine tileId : Nat) (u : Tile) :
    ((s.grid.getD i default).isRevealed = true →
      handleTilePress players i s = s) ∧
    (s.picksLeft = 0 → handleTilePress players i s = s) ∧
    (a.grid.find? (fun x => x.id == tileId) = some u → u.isRevealed = true →
      handlePick nextMine tileId a = a) ∧
    (a.picksLeft = 0 → handlePick nextMine tileId a = a) ∧
    (a.players = [] → handlePick nextMine tileId a = a) := by
  refine ⟨?_, ?_, ?_, ?_, ?_⟩
  · intro h
    unfold handleTilePress
    rw [if_pos (Or.inr (Or.inl h))]
  · intro h
    unfold handleTilePress
    rw [if_pos (Or.inr (Or.inr (Or.inr (Or.inl (by rw [h])))))]
  · intro hu hr
    unfold handlePick
    cases hcp : currentPlayer a with
    | none => rfl
    | some cp =>
      by_cases hp : a.picksLeft = 0
      · simp [hp]
      · simp [hp, hu, hr]
  · intro h
    unfold handlePick
    cases hcp : currentPlayer a with
    | none => rfl
    | some cp => simp [h]
  · intro h
    unfold handlePick
    have : currentPlayer a = none := by
      unfold currentPlayer
      rw [h]
      simp
    rw [this]

/-- Witness for C3's amended theorem at concrete inputs: tapping the
already-revealed cell 0 of `sWon`, tapping cell 2 of `sWon` with its picks
exhausted, tapping the already-revealed cell 0 of `appMid`, tapping
`appZero` with no picks left, and tapping `appEmpty` with no players are
all no-ops. -/
theorem tap_noop_cases_witness :
    handleTilePress ["A", "B"] 0 sWon = sWon ∧
    handleTilePress ["A", "B"] 2 sWon = sWon ∧
    handlePick 4 0 appMid = appMid ∧
    handlePick 4 0 appZero = appZero ∧
    handlePick 4 0 appEmpty = appEmpty :=
  ⟨(tap_noop_cases ["A", "B"] 0 sWon appMid 4 0 ⟨0, false, true⟩).1
      (by decide),
   (tap_noop_cases ["A", "B"] 2 sWon appMid 4 0 ⟨0, false, true⟩).2.1
      (by decide),
   (tap_noop_cases ["A", "B"] 0 sWon appMid 4 0 ⟨0, false, true⟩).2.2.1
      (by decide) (by decide),
   (tap_noop_cases ["A", "B"] 0 sWon appZero 4 0 ⟨0, false, false⟩).2.2.2.1
      (by decide),
   (tap_noop_cases ["A", "B"] 0 sWon appEmpty 4 0 ⟨0, false, false⟩).2.2.2.2
      (by decide)⟩

/-- None of the in-round `GameScreen` operations changes `mineCount`. -/
theorem mineCount_preserved (players : List String) (i : Nat) (n : Nat)
    (s : GameState) :
    (handleTilePress players i s).mineCount = s.mineCount ∧
    (nextTurn n s).mineCount = s.mineCount ∧
    (handleEndTurn n s).mineCount = s.mineCount := by
  refine ⟨?_, rfl, ?_⟩
  · unfold handleTilePress
    split
    · rfl
    split
    · rfl
    split
    · rfl
    split <;> rfl
  · unfold handleEndTurn nextTurn
    split <;> rfl

/-- C4: a successful grid initialization yields a 25-cell grid whose cells
carry the distinct positions 0..24 and of which exactly `mineCount` are
mines (the placement loop samples without replacement: a draw that hits an
existing mine is retried), and no in-round operation (`handleTilePress`,
`nextTurn`, `handleEndTurn`) ever changes `mineCount`. -/
theorem grid_init_exact_mines
    (draws : List Nat) (s s2 : GameState)
    (hK1 : 1 ≤ s.mineCount) (hK2 : s.mineCount ≤ 24)
    (h : initializeGame draws s = some s2) :
    s2.grid.length = 25 ∧
    countMines s2.grid = s.mineCount ∧
    s2.grid.map Tile.id = List.range 25 ∧
    s2.mineCount = s.mineCount ∧
    (∀ (players : List String) (i : Nat),
      (handleTilePress players i s2).mineCount = s2.mineCount) ∧
    (∀ n : Nat, (nextTurn n s2).mineCount = s2.mineCount) ∧
    (∀ n : Nat, (handleEndTurn n s2).mineCount = s2.mineCount) := by
  obtain ⟨h1, h2, h3, -, -, -, -, -, hmc, -, -⟩ :=
    initializeGame_some draws s s2 h
  exact ⟨h1, h2, h3, hmc,
    fun players i => (mineCount_preserved players i 0 s2).1,
    fun n => (mineCount_preserved [] 0 n s2).2.1,
    fun n => (mineCount_preserved [] 0 n s2).2.2⟩

/-- Witness for C4 at a concrete input: `mineCount = 3`, draws `[3, 7, 9]`. -/
theorem grid_init_exact_mines_witness :
    sK3Init.grid.length = 25 ∧
    countMines sK3Init.grid = sK3.mineCount ∧
    sK3Init.grid.map Tile.id = List.range 25 ∧
    sK3Init.mineCount = sK3.mineCount ∧
    (∀ (players : List String) (i : Nat),
      (handleTilePress players i sK3Init).mineCount = sK3Init.mineCount) ∧
    (∀ n : Nat, (nextTurn n sK3Init).mineCount = sK3Init.mineCount) ∧
    (∀ n : Nat, (handleEndTurn n sK3Init).mineCount = sK3Init.mineCount) :=
  grid_init_exact_mines [3, 7, 9] sK3 sK3Init (by decide) (by decide)
    (by decide)

/-- C5: in `AwaitingPick`, revealing a not-yet-revealed non-mine cell
decrements `picksLeft` by exactly 1 and reveals only that cell; when the new
`picksLeft` is 0 the machine is in `RoundWon` and the advance timer is
armed (its `nextTurn` then advances the turn), otherwise it stays in
`AwaitingPick`.  The same contract holds for `App.tsx`'s `handlePick`,
whose round-won branch runs its advance (`advanceTurn`) immediately. -/
theorem safe_reveal_decrements
    (players : List String) (s : GameState) (i : Nat) (t : Tile)
    (hphase : phase s = Phase.AwaitingPick)
    (ht : s.grid.get? i = some t) (hmine : t.isMine = false)
    (hunrev : t.isRevealed = false)
    (a : AppState) (nextMine tileId : Nat) (u : Tile) (cp : AppPlayer)
    (hcp : currentPlayer a = some cp) (hpicks : a.picksLeft ≠ 0)
    (hu : a.grid.find? (fun x => x.id == tileId) = some u)
    (humine : u.isMine = false) (huunrev : u.isRevealed = false) :
    ((handleTilePress players i s).picksLeft = s.picksLeft - 1 ∧
     (handleTilePress players i s).grid.get? i
        = some { t with isRevealed := true } ∧
     (∀ j, j ≠ i →
        (handleTilePress players i s).grid.get? j = s.grid.get? j) ∧
     (s.picksLeft - 1 = 0 →
        phase (handleTilePress players i s) = Phase.RoundWon ∧
        tilePressStartsTimer i s = true ∧
        ∀ n : Nat, n ≠ 0 →
          (nextTurn n (handleTilePress players i s)).currentPlayerIndex
            = (s.currentPlayerIndex + 1) % n ∧
          (nextTurn n (handleTilePress players i s)).picksLeft = 3) ∧
     (s.picksLeft - 1 ≠ 0 →
        phase (handleTilePress players i s) = Phase.AwaitingPick ∧
        tilePressStartsTimer i s = false)) ∧
    ((handlePick nextMine tileId a).players = a.players ∧
     (a.picksLeft - 1 ≠ 0 →
        (handlePick nextMine tileId a).picksLeft = a.picksLeft - 1 ∧
        (handlePick nextMine tileId a).grid
          = a.grid.map (fun x =>
              if x.id == tileId then { x with isRevealed := true } else x) ∧
        (handlePick nextMine tileId a).currentPlayerIndex
          = a.currentPlayerIndex) ∧
     (a.picksLeft - 1 = 0 →
        (handlePick nextMine tileId a).picksLeft = 3 ∧
        (handlePick nextMine tileId a).currentPlayerIndex
          = (a.currentPlayerIndex + 1) % a.players.length)) := by
  obtain ⟨hgo, hsp, hpl, htl⟩ := (phase_eq_awaitingPick s).mp hphase
  have hgd : s.grid.getD i default = t := by
    rw [List.getD_eq_get?, ht]
    rfl
  have hguard : ¬(s.isGameOver = true
      ∨ (s.grid.getD i default).isRevealed = true
      ∨ truthyStr s.slappedPlayer = true ∨ s.picksLeft ≤ 0
      ∨ s.turnLocked = true) := by
    rw [hgo, hsp, htl, hgd, hunrev]
    simp
    omega
  have hlen : i < s.grid.length := by
    rcases List.get?_eq_some.mp ht with ⟨hl, -⟩
    exact hl
  have halen : a.players.length ≠ 0 := by
    unfold currentPlayer at hcp
    by_cases hl : a.players.length ≠ 0
    · exact hl
    · rw [if_neg hl] at hcp
      cases hcp
  constructor
  · by_cases hz : s.picksLeft - 1 = 0
    · have hstep : handleTilePress players i s =
          { s with grid := s.grid.set i { t with isRevealed := true },
                   picksLeft := 0, turnLocked := true } := by
        unfold handleTilePress
        rw [if_neg hguard, ht]
        simp [hmine, hz]
      refine ⟨?_, ?_, ?_, ?_, fun hz2 => absurd hz hz2⟩
      · rw [hstep]
        show (0 : Int) = s.picksLeft - 1
        omega
      · rw [hstep]
        exact List.get?_set_eq_of_lt _ hlen
      · intro j hj
        rw [hstep]
        exact List.get?_set_ne _ _ (fun hh => hj hh.symm)
      · intro _
        refine ⟨?_, ?_, fun n hn => ⟨?_, rfl⟩⟩
        · rw [hstep]
          simp [phase, hgo, hsp]
        · unfold tilePressStartsTimer
          rw [if_neg hguard, ht]
          simp [hmine, hz]
        · rw [hstep]
          simp [nextTurn, hn]
    · have hstep : handleTilePress players i s =
          { s with grid := s.grid.set i { t with isRevealed := true },
                   picksLeft := s.picksLeft - 1 } := by
        unfold handleTilePress
        rw [if_neg hguard, ht]
        simp [hmine, hz]
      refine ⟨by rw [hstep], ?_, ?_, fun hz2 => absurd hz2 hz, fun _ => ⟨?_, ?_⟩⟩
      · rw [hstep]
        exact List.get?_set_eq_of_lt _ hlen
      · intro j hj
        rw [hstep]
        exact List.get?_set_ne _ _ (fun hh => hj hh.symm)
      · rw [hstep, phase_eq_awaitingPick]
        exact ⟨hgo, hsp, by show 0 < s.picksLeft - 1; omega, htl⟩
      · unfold tilePressStartsTimer
        rw [if_neg hguard, ht]
        simp [hmine, hz]
  · have happ : handlePick nextMine tileId a =
        (if a.picksLeft - 1 = 0 then
          advanceTurn nextMine (some (cp.name ++ " is safe. Next player."))
            { a with
              grid := a.grid.map (fun x =>
                if x.id == tileId then { x with isRevealed := true } else x),
              picksLeft := a.picksLeft - 1 }
        else
          { a with
            grid := a.grid.map (fun x =>
              if x.id == tileId then { x with isRevealed := true } else x),
            picksLeft := a.picksLeft - 1 }) := by
      unfold handlePick
      rw [hcp]
      simp only [hpicks, hu, huunrev, humine, Bool.false_eq_true, if_false,
        ite_false, if_true, ite_true]
    by_cases hz : a.picksLeft - 1 = 0
    · rw [happ, if_pos hz]
      refine ⟨?_, fun hz2 => absurd hz hz2, fun _ => ⟨?_, ?_⟩⟩
      · rw [advanceTurn_players]
      · simp [advanceTurn, resetRound, halen]
      · simp [advanceTurn, resetRound, halen]
    · rw [happ, if_neg hz]
      exact ⟨rfl, fun _ => ⟨rfl, rfl, rfl⟩, fun hz2 => absurd hz2 hz⟩

/-- Witness for C5 at concrete inputs: revealing safe cell 0 of `sFresh`
(3 picks left, stays `AwaitingPick`) and safe cell 2 of `appMid` (2 picks
left, drops to 1). -/
theorem safe_reveal_decrements_witness :
    ((handleTilePress ["A", "B"] 0 sFresh).picksLeft = sFresh.picksLeft - 1 ∧
     (handleTilePress ["A", "B"] 0 sFresh).grid.get? 0
        = some ⟨0, false, true⟩ ∧
     (∀ j, j ≠ 0 →
        (handleTilePress ["A", "B"] 0 sFresh).grid.get? j
          = sFresh.grid.get? j) ∧
     (sFresh.picksLeft - 1 = 0 →
        phase (handleTilePress ["A", "B"] 0 sFresh) = Phase.RoundWon ∧
        tilePressStartsTimer 0 sFresh = true ∧
        ∀ n : Nat, n ≠ 0 →
          (nextTurn n (handleTilePress ["A", "B"] 0 sFresh)).currentPlayerIndex
            = (sFresh.currentPlayerIndex + 1) % n ∧
          (nextTurn n (handleTilePress ["A", "B"] 0 sFresh)).picksLeft = 3) ∧
     (sFresh.picksLeft - 1 ≠ 0 →
        phase (handleTilePress ["A", "B"] 0 sFresh) = Phase.AwaitingPick ∧
        tilePressStartsTimer 0 sFresh = false)) ∧
    ((handlePick 4 2 appMid).players = appMid.players ∧
     (appMid.picksLeft - 1 ≠ 0 →
        (handlePick 4 2 appMid).picksLeft = appMid.picksLeft - 1 ∧
        (handlePick 4 2 appMid).grid
          = appMid.grid.map (fun x =>
              if x.id == 2 then { x with isRevealed := true } else x) ∧
        (handlePick 4 2 appMid).currentPlayerIndex
          = appMid.currentPlayerIndex) ∧
     (appMid.picksLeft - 1 = 0 →
        (handlePick 4 2 appMid).picksLeft = 3 ∧
        (handlePick 4 2 appMid).currentPlayerIndex
          = (appMid.currentPlayerIndex + 1) % appMid.players.length)) :=
  safe_reveal_decrements ["A", "B"] sFresh 0 ⟨0, false, false⟩ (by decide)
    (by decide) (by decide) (by decide) appMid 4 2 ⟨2, false, false⟩
    ⟨1, "A", 0⟩ (by decide) (by decide) (by decide) (by decide) (by decide)

/-- C6: the End Turn press (button guard plus `handleEndTurn`) succeeds
exactly when at least one pick has been used (`picksLeft < 3`) and the round
is not over (`isGameOver` clear); on success it performs precisely the
`RoundWon`-style advance `nextTurn` — picks reset to 3, index advanced,
grid and mine setting untouched, and no slap recorded anywhere (the
`GameScreen` stores no slap counts and `nextTurn` touches nothing else) —
and otherwise the press leaves the state unchanged. -/
theorem endTurn_only_after_pick
    (n : Nat) (s : GameState) (hn : n ≠ 0) (hle : s.picksLeft ≤ 3) :
    (¬(s.picksLeft < 3 ∧ s.isGameOver = false) → endTurnButton n s = s) ∧
    (s.picksLeft < 3 ∧ s.isGameOver = false →
       endTurnButton n s = nextTurn n s ∧
       (endTurnButton n s).picksLeft = 3 ∧
       (endTurnButton n s).currentPlayerIndex
          = (s.currentPlayerIndex + 1) % n ∧
       (endTurnButton n s).grid = s.grid ∧
       (endTurnButton n s).mineCount = s.mineCount ∧
       (endTurnButton n s).slappedPlayer = s.slappedPlayer) := by
  constructor
  · intro h
    have hcond : s.picksLeft = 3 ∨ s.isGameOver = true := by
      push_neg at h
      by_cases hp : s.picksLeft < 3
      · right
        simpa using h hp
      · left
        omega
    unfold endTurnButton
    rw [if_pos hcond]
  · rintro ⟨h1, h2⟩
    have h3 : ¬(s.picksLeft = 3 ∨ s.isGameOver = true) := by
      rintro (hh | hh)
      · omega
      · rw [h2] at hh
        cases hh
    have hne : endTurnButton n s = nextTurn n s := by
      unfold endTurnButton handleEndTurn
      rw [if_neg h3, if_neg (by omega : ¬s.picksLeft = 3)]
      rfl
    rw [hne]
    exact ⟨rfl, rfl, by simp [nextTurn, hn], rfl, rfl, rfl⟩

/-- Witness for C6 at concrete inputs: from `sWon` (0 of 3 picks left,
round not over) the press advances to player 1 with picks reset; from
`sFresh` (no pick used yet) the press is dropped. -/
theorem endTurn_only_after_pick_witness :
    (endTurnButton 2 sWon = nextTurn 2 sWon ∧
     (endTurnButton 2 sWon).picksLeft = 3 ∧
     (endTurnButton 2 sWon).currentPlayerIndex
        = (sWon.currentPlayerIndex + 1) % 2 ∧
     (endTurnButton 2 sWon).grid = sWon.grid ∧
     (endTurnButton 2 sWon).mineCount = sWon.mineCount ∧
     (endTurnButton 2 sWon).slappedPlayer = sWon.slappedPlayer) ∧
    endTurnButton 2 sFresh = sFresh :=
  ⟨(endTurn_only_after_pick 2 sWon (by decide) (by decide)).2 (by decide),
   (endTurn_only_after_pick 2 sFresh (by decide) (by decide)).1 (by decide)⟩

/-- The three possible outcomes of a `SetupScreen` add: the roster is left
unchanged, or the trimmed name — nonempty and previously absent — is
appended. -/
theorem setupAddPlayer_fst (nm : String) (ps : List String) :
    (setupAddPlayer nm ps).1 = ps ∨
    ((setupAddPlayer nm ps).1 = ps ++ [jsTrim nm] ∧ jsTrim nm ≠ ""
      ∧ jsTrim nm ∉ ps) := by
  unfold setupAddPlayer
  by_cases h1 : jsTrim nm = ""
  · rw [if_pos h1]
    left
    rfl
  · rw [if_neg h1]
    by_cases h2 : ps.contains (jsTrim nm) = true
    · rw [if_pos h2]
      left
      rfl
    · rw [if_neg h2]
      right
      refine ⟨rfl, h1, fun hmem => h2 (by simpa using hmem)⟩

/-- Every roster the `SetupScreen` can reach has pairwise-distinct entries
and never contains the empty name. -/
theorem rosterReachable_nodup (ps : List String) (h : RosterReachable ps) :
    ps.Nodup ∧ "" ∉ ps := by
  induction h with
  | start => exact ⟨List.nodup_nil, by simp⟩
  | add nm h ih =>
    obtain ⟨hnd, hne⟩ := ih
    rcases setupAddPlayer_fst nm _ with he | ⟨he, h1, h2⟩
    · rw [he]
      exact ⟨hnd, hne⟩
    · rw [he]
      constructor
      · rw [List.nodup_append]
        exact ⟨hnd, List.nodup_singleton _,
          List.disjoint_singleton.mpr h2⟩
      · intro hmem
        rcases List.mem_append.mp hmem with hm | hm
        · exact hne hm
        · simp at hm
          exact h1 hm.symm
  | remove i h ih =>
    obtain ⟨hnd, hne⟩ := ih
    unfold setupRemovePlayer
    exact ⟨(List.eraseIdx_sublist _ i).nodup hnd,
      fun hm => hne ((List.eraseIdx_sublist _ i).subset hm)⟩

/-- C7 counterexample: `App.tsx`'s `addPlayer` does not check for
duplicates.  With roster `["A"]` (state `appOne`), submitting "A" again
changes the roster to `["A", "A"]` — the duplicate is accepted with no
message rather than rejected. -/
theorem app_addPlayer_accepts_duplicate_cex :
    (appAddPlayer "A" 7 appOne).players.map AppPlayer.name = ["A", "A"] ∧
    (appAddPlayer "A" 7 appOne).players ≠ appOne.players := by
  decide

/-- C7 amended: in the `SetupScreen` — the screen whose roster is handed to
the game — submitting a name whose trimmed form already appears in the
roster is rejected with the non-fatal "Duplicate Name" alert and leaves the
roster unchanged, and every roster the `SetupScreen` can reach (hence every
roster it hands to the game) is a list of distinct display names; the
standalone `App.tsx` `addPlayer`, by contrast, performs no duplicate check
and appends the duplicate. -/
theorem setup_duplicate_rejected_roster_distinct
    (nm : String) (ps : List String) (hps : RosterReachable ps)
    (hdup : ps.contains (jsTrim nm) = true) :
    setupAddPlayer nm ps
      = (ps, some "Duplicate Name: Player already exists!") ∧
    ps.Nodup ∧
    (∀ qs, RosterReachable qs → qs.Nodup) := by
  obtain ⟨hnd, hne⟩ := rosterReachable_nodup ps hps
  have hmem : jsTrim nm ∈ ps := by simpa using hdup
  have h1 : ¬jsTrim nm = "" := fun hh => hne (hh ▸ hmem)
  unfold setupAddPlayer
  rw [if_neg h1, if_pos hdup]
  exact ⟨rfl, hnd, fun qs hqs => (rosterReachable_nodup qs hqs).1⟩

/-- Witness for C7's amended theorem at a concrete input: roster `["A"]`
(reached by adding "A" to the empty roster), submitting "A" again. -/
theorem setup_duplicate_rejected_roster_distinct_witness :
    setupAddPlayer "A" ["A"]
      = (["A"], some "Duplicate Name: Player already exists!") ∧
    (["A"] : List String).Nodup ∧
    (∀ qs, RosterReachable qs → qs.Nodup) := by
  have h2 := RosterReachable.add "A" RosterReachable.start
  have he : (setupAddPlayer "A" []).1 = ["A"] := by decide
  rw [he] at h2
  exact setup_duplicate_rejected_roster_distinct "A" ["A"] h2 (by decide)

/-- C8: the game screen's roster parse maps a missing `players` param — and
likewise an empty-string param, falsy in JavaScript — or a param on which
`JSON.parse` throws, to the empty roster; the `try/catch` means no fatal
error can escape (the parse is total by construction). -/
theorem malformed_players_param_empty_roster
    (jsonParse : String → Except String (List String))
    (param : Option String)
    (h : param = none ∨ param = some ""
      ∨ ∃ str e, param = some str ∧ jsonParse str = Except.error e) :
    parsePlayers jsonParse param = [] := by
  rcases h with h | h | ⟨str, e, hp, he⟩
  · rw [h]
    rfl
  · rw [h]
    rfl
  · unfold parsePlayers
    rw [hp]
    by_cases hs : str = ""
    · simp [hs]
    · simp [hs, he]

/-- Witness for C8 at concrete inputs: a param carrying malformed JSON,
parsed by a `JSON.parse` stand-in that throws on every string, is read as
the empty roster. -/
theorem malformed_players_param_empty_roster_witness :
    parsePlayers alwaysFailParse (some "not json") = [] :=
  malformed_players_param_empty_roster alwaysFailParse (some "not json")
    (Or.inr (Or.inr ⟨"not json", "Unexpected token", rfl, rfl⟩))

/-- Repeated tile presses in the `GameScreen` keep `picksLeft` non-negative
and non-increasing. -/
theorem handleTilePress_foldl_picksLeft (players : List String) :
    ∀ (presses : List Nat) (s : GameState), 0 ≤ s.picksLeft →
      0 ≤ (presses.foldl (fun st j => handleTilePress players j st)
            s).picksLeft ∧
      (presses.foldl (fun st j => handleTilePress players j st)
            s).picksLeft ≤ s.picksLeft := by
  intro presses
  induction presses with
  | nil => exact fun s h => ⟨h, le_refl _⟩
  | cons p ps ih =>
    intro s h
    obtain ⟨h1, h2⟩ := handleTilePress_picksLeft players p s h
    obtain ⟨h3, h4⟩ := ih (handleTilePress players p s) h1
    exact ⟨h3, le_trans h4 h2⟩

/-- C9: within a round (i.e. until one of the explicit resets
`nextTurn` / `initializeGame` / `advanceTurn` runs), `picksLeft` stays
non-negative and never increases: a single `GameScreen` tile press, any
sequence of `GameScreen` tile presses, and an `App.tsx` pick all preserve
`0 ≤ picksLeft`, and each either leaves `picksLeft` no larger than before
or is a reset to the budget 3. -/
theorem picksLeft_nonneg_monotone
    (players : List String) (i : Nat) (s : GameState)
    (h : 0 ≤ s.picksLeft) (presses : List Nat)
    (a : AppState) (nextMine tileId : Nat) (ha : 0 ≤ a.picksLeft) :
    (0 ≤ (handleTilePress players i s).picksLeft ∧
     (handleTilePress players i s).picksLeft ≤ s.picksLeft) ∧
    (0 ≤ (presses.foldl (fun st j => handleTilePress players j st)
          s).picksLeft ∧
     (presses.foldl (fun st j => handleTilePress players j st)
          s).picksLeft ≤ s.picksLeft) ∧
    (0 ≤ (handlePick nextMine tileId a).picksLeft ∧
     ((handlePick nextMine tileId a).picksLeft ≤ a.picksLeft ∨
      (handlePick nextMine tileId a).picksLeft = 3)) := by
  refine ⟨handleTilePress_picksLeft players i s h,
    handleTilePress_foldl_picksLeft players presses s h, ?_⟩
  unfold handlePick
  split
  · exact ⟨ha, Or.inl (le_refl _)⟩
  next cp hcp =>
    split
    · exact ⟨ha, Or.inl (le_refl _)⟩
    next hp0 =>
      split
      · exact ⟨ha, Or.inl (le_refl _)⟩
      next u hu =>
        split
        · exact ⟨ha, Or.inl (le_refl _)⟩
        next hr =>
          split
          next hm =>
            unfold advanceTurn resetRound
            dsimp only
            split
            · exact ⟨ha, Or.inl (le_refl _)⟩
            · exact ⟨by show (0 : Int) ≤ 3; norm_num, Or.inr rfl⟩
          next hm =>
            split
            next he =>
              unfold advanceTurn resetRound
              dsimp only
              split
              · refine ⟨?_, Or.inl ?_⟩
                · show (0 : Int) ≤ a.picksLeft - 1
                  omega
                · show a.picksLeft - 1 ≤ a.picksLeft
                  omega
              · exact ⟨by show (0 : Int) ≤ 3; norm_num, Or.inr rfl⟩
            next he =>
              refine ⟨?_, Or.inl ?_⟩
              · show (0 : Int) ≤ a.picksLeft - 1
                omega
              · show a.picksLeft - 1 ≤ a.picksLeft
                omega

/-- Witness for C9 at concrete inputs: from `sFresh`, one press on cell 0
and then the press sequence `[0, 2, 3, 4]`; in `appMid`, a pick of cell
2. -/
theorem picksLeft_nonneg_monotone_witness :
    (0 ≤ (handleTilePress ["A", "B"] 0 sFresh).picksLeft ∧
     (handleTilePress ["A", "B"] 0 sFresh).picksLeft ≤ sFresh.picksLeft) ∧
    (0 ≤ (([0, 2, 3, 4] : List Nat).foldl
          (fun st j => handleTilePress ["A", "B"] j st) sFresh).picksLeft ∧
     (([0, 2, 3, 4] : List Nat).foldl
          (fun st j => handleTilePress ["A", "B"] j st) sFresh).picksLeft
        ≤ sFresh.picksLeft) ∧
    (0 ≤ (handlePick 4 2 appMid).picksLeft ∧
     ((handlePick 4 2 appMid).picksLeft ≤ appMid.picksLeft ∨
      (handlePick 4 2 appMid).picksLeft = 3)) :=
  picksLeft_nonneg_monotone ["A", "B"] 0 sFresh (by decide) [0, 2, 3, 4]
    appMid 4 2 (by decide)

/-- C10: the Hidden Mines controls keep `mineCount` clamped to 1..24 and
leave the current-player index alone, and the re-initialization they
trigger (the `useEffect` that reruns `initializeGame` whenever `mineCount`
changes) rebuilds a fresh 25-cell hidden grid carrying the new mine count,
resets `picksLeft` to 3 and clears both the game-over and slapped flags —
all without touching `currentPlayerIndex`. -/
theorem mineCount_change_reinitializes
    (s : GameState) (draws : List Nat)
    (h1 : 1 ≤ s.mineCount) (h24 : s.mineCount ≤ 24) :
    (1 ≤ (incMineCount s).mineCount ∧ (incMineCount s).mineCount ≤ 24 ∧
     1 ≤ (decMineCount s).mineCount ∧ (decMineCount s).mineCount ≤ 24 ∧
     (incMineCount s).currentPlayerIndex = s.currentPlayerIndex ∧
     (decMineCount s).currentPlayerIndex = s.currentPlayerIndex) ∧
    (∀ s2, initializeGame draws (incMineCount s) = some s2 →
       s2.currentPlayerIndex = s.currentPlayerIndex ∧ s2.picksLeft = 3 ∧
       s2.isGameOver = false ∧ s2.slappedPlayer = none ∧
       countMines s2.grid = min 24 (s.mineCount + 1) ∧
       s2.grid.length = 25 ∧ (∀ t ∈ s2.grid, t.isRevealed = false) ∧
       phase s2 = Phase.AwaitingPick) ∧
    (∀ s2, initializeGame draws (decMineCount s) = some s2 →
       s2.currentPlayerIndex = s.currentPlayerIndex ∧ s2.picksLeft = 3 ∧
       s2.isGameOver = false ∧ s2.slappedPlayer = none ∧
       countMines s2.grid = max 1 (s.mineCount - 1) ∧
       s2.grid.length = 25 ∧ (∀ t ∈ s2.grid, t.isRevealed = false) ∧
       phase s2 = Phase.AwaitingPick) := by
  refine ⟨?_, ?_, ?_⟩
  · unfold incMineCount decMineCount
    refine ⟨?_, ?_, ?_, ?_, rfl, rfl⟩ <;> simp <;> omega
  · intro s2 hini
    obtain ⟨hl, hc, -, hrev, hpk, hgo, hsl, -, hmc, hcp, hph⟩ :=
      initializeGame_some draws (incMineCount s) s2 hini
    exact ⟨hcp, hpk, hgo, hsl, hc, hl, hrev, hph⟩
  · intro s2 hini
    obtain ⟨hl, hc, -, hrev, hpk, hgo, hsl, -, hmc, hcp, hph⟩ :=
      initializeGame_some draws (decMineCount s) s2 hini
    exact ⟨hcp, hpk, hgo, hsl, hc, hl, hrev, hph⟩

/-- Witness for C10 at a concrete input: from `sK3` (3 hidden mines), the
Minus control goes to 2 and the triggered re-initialization with draws
`[3, 7]` produces exactly `sK2Init`. -/
theorem mineCount_change_reinitializes_witness :
    (1 ≤ (incMineCount sK3).mineCount ∧ (incMineCount sK3).mineCount ≤ 24 ∧
     1 ≤ (decMineCount sK3).mineCount ∧ (decMineCount sK3).mineCount ≤ 24 ∧
     (incMineCount sK3).currentPlayerIndex = sK3.currentPlayerIndex ∧
     (decMineCount sK3).currentPlayerIndex = sK3.currentPlayerIndex) ∧
    (sK2Init.currentPlayerIndex = sK3.currentPlayerIndex ∧
     sK2Init.picksLeft = 3 ∧ sK2Init.isGameOver = false ∧
     sK2Init.slappedPlayer = none ∧
     countMines sK2Init.grid = max 1 (sK3.mineCount - 1) ∧
     sK2Init.grid.length = 25 ∧
     (∀ t ∈ sK2Init.grid, t.isRevealed = false) ∧
     phase sK2Init = Phase.AwaitingPick) :=
  ⟨(mineCount_change_reinitializes sK3 [3, 7] (by decide) (by decide)).1,
   (mineCount_change_reinitializes sK3 [3, 7] (by decide) (by decide)).2.2
     sK2Init (by decide)⟩
